import Mathlib

/-!
Verification development for the ArgParser library (src/ArgParser/ArgParser.py).

The Python source is shallowly embedded: the runtime values the library
manipulates become the inductive type `Value`, Python's class hierarchy used by
the tests (ParentClass / ChildClass / OtherClass) becomes the type-tag `Ty`
with an explicit subtype relation, Python dicts become association lists with
dict semantics (`dictGet` / `dictSet` / `dictDel`), raised exceptions become an
explicit error type `PyError`, and the mutation of `self` (`setattr`,
`del self._args[name]`, `del args[i]`) becomes explicit state threading.
Numbers are modelled as rationals carrying an int/float type tag: the source
only ever compares numbers, so the order structure is all that matters.
-/

set_option autoImplicit false

namespace ArgParser

/-- Runtime type tags for the Python values the library and its tests use.
`parent`, `child`, `other` stand for the test suite's ParentClass, ChildClass
(a subclass of ParentClass) and OtherClass. -/
inductive Ty where
  | int
  | float
  | str
  | noneType
  | parent
  | child
  | other
deriving DecidableEq, Repr

/-- Python `issubclass(a, b)`: reflexive, plus ChildClass below ParentClass. -/
def Ty.isSub (a b : Ty) : Bool :=
  a == b || (a == Ty.child && b == Ty.parent)

/-- Python runtime values. `vnum q isFloat` is the number `q` tagged as a
float (`isFloat = true`) or an int; Python's `==`, `<`, `>` on numbers ignore
the tag, while `type(v)` does not. `inst t id` is an object instance of class
`t` with identity `id` (Python object equality is identity). -/
inductive Value where
  | vnum (q : ℚ) (isFloat : Bool)
  | vstr (s : String)
  | vnone
  | inst (t : Ty) (id : Nat)
deriving DecidableEq, Repr

/-- Python `type(value)` as a type tag. -/
def typeOf : Value → Ty
  | .vnum _ false => .int
  | .vnum _ true => .float
  | .vstr _ => .str
  | .vnone => .noneType
  | .inst t _ => t

/-- Python `==` between the values in our universe: numbers compare by
numeric value regardless of int/float tag, strings by content, instances by
identity, cross-kind comparisons are `False`. -/
def pyEq : Value → Value → Bool
  | .vnum q _, .vnum r _ => q == r
  | .vstr s, .vstr t => s == t
  | .vnone, .vnone => true
  | .inst t i, .inst u j => t == u && i == j
  | _, _ => false

/-- Python `a < b`. `none` models the TypeError raised when the comparison is
unsupported (e.g. a string against a number). -/
def pyLt : Value → Value → Option Bool
  | .vnum q _, .vnum r _ => some (decide (q < r))
  | .vstr s, .vstr t => some (decide (s < t))
  | _, _ => none

/-- Python `a > b`; `none` models an unsupported-comparison TypeError. -/
def pyGt : Value → Value → Option Bool
  | .vnum q _, .vnum r _ => some (decide (r < q))
  | .vstr s, .vstr t => some (decide (t < s))
  | _, _ => none

/-- Python `len(value)`; `none` models the TypeError raised when the value has
no length (only strings have one in our universe). -/
def pyLen : Value → Option Nat
  | .vstr s => some s.length
  | _ => none

/-- True exactly for Python ints and floats, the shapes `_parseConstraint`
accepts for the `min` and `max` options. -/
def isNum : Value → Bool
  | .vnum _ _ => true
  | _ => false

/-- Python `isinstance(v, dtype)` where `dtype` is a type or tuple of types
(modelled as a nonempty list of type tags); respects subclassing. -/
def pyIsInstance (v : Value) (ts : List Ty) : Bool :=
  ts.any (fun t => (typeOf v).isSub t)

/-- All the exceptions the source can raise, by kind, carrying the data the
messages are built from. The two spellings of the too-many / missing /
unexpected errors mirror the source's distinct single-name and list-of-names
messages. `cmpTypeError` is the TypeError Python itself raises when a
comparison or `len` is unsupported; `indexError` models out-of-range list
indexing. -/
inductive PyError where
  | typeMismatch (name : String)
  | subClassMismatch (name : String)
  | belowMinimum (name : String)
  | aboveMaximum (name : String)
  | tooShort (name : String)
  | tooLong (name : String)
  | notAllowedValue (name : String)
  | cmpTypeError
  | constraintSpecError (name : String)
  | multiplePositionalDefaults
  | tooManyPositionalExact (expected got : Nat)
  | tooManyPositionalRange (lo hi got : Nat)
  | missingPositionalOne (name : String)
  | missingPositionalMany (names : List String)
  | missingKeyword (name : String)
  | unexpectedKeywordOne (name : String)
  | unexpectedKeywordMany (names : List String)
  | indexError
deriving DecidableEq, Repr

/-- `ArgConstraint` (source lines 30-71): each `hasX`/`X` sentinel pair of the
Python constructor becomes one `Option` field; `default := some .vnone`
faithfully renders an explicitly supplied `default=None`. -/
structure ArgConstraint where
  dtype : Option (List Ty) := none
  subClass : Option Ty := none
  min : Option Value := none
  max : Option Value := none
  minLength : Option Int := none
  maxLength : Option Int := none
  default : Option Value := none
  possibleValues : Option (List Value) := none
  optional : Bool := false
deriving DecidableEq, Repr

/-- Final check of `ArgConstraint.validate` (source lines 115-118): membership
in `possibleValues`. -/
def valAllowed (c : ArgConstraint) (name : String) (v : Value) : Option PyError :=
  match c.possibleValues with
  | none => none
  | some pv => if pv.any (pyEq v) then none else some (.notAllowedValue name)

/-- `validate` from the maxLength check on (source lines 110-113). -/
def valFromMaxLength (c : ArgConstraint) (name : String) (v : Value) : Option PyError :=
  match c.maxLength with
  | none => valAllowed c name v
  | some b =>
    match pyLen v with
    | none => some .cmpTypeError
    | some l => if (l : Int) > b then some (.tooLong name) else valAllowed c name v

/-- `validate` from the minLength check on (source lines 105-108). -/
def valFromMinLength (c : ArgConstraint) (name : String) (v : Value) : Option PyError :=
  match c.minLength with
  | none => valFromMaxLength c name v
  | some a =>
    match pyLen v with
    | none => some .cmpTypeError
    | some l => if (l : Int) < a then some (.tooShort name) else valFromMaxLength c name v

/-- `validate` from the max check on (source lines 100-103). -/
def valFromMax (c : ArgConstraint) (name : String) (v : Value) : Option PyError :=
  match c.max with
  | none => valFromMinLength c name v
  | some m =>
    match pyGt v m with
    | none => some .cmpTypeError
    | some true => some (.aboveMaximum name)
    | some false => valFromMinLength c name v

/-- `validate` from the min check on (source lines 95-98). -/
def valFromMin (c : ArgConstraint) (name : String) (v : Value) : Option PyError :=
  match c.min with
  | none => valFromMax c name v
  | some m =>
    match pyLt v m with
    | none => some .cmpTypeError
    | some true => some (.belowMinimum name)
    | some false => valFromMax c name v

/-- `ArgConstraint.validate` (source lines 73-118): the checks run in source
order — dtype, subClass, min, max, minLength, maxLength, possibleValues —
each raising (returning `some`) as soon as it fails. `none` is success. -/
def ArgConstraint.validate (c : ArgConstraint) (name : String) (v : Value) : Option PyError :=
  match c.dtype with
  | some ts =>
    if pyIsInstance v ts then
      match c.subClass with
      | some t =>
        if (typeOf v).isSub t then valFromMin c name v else some (.subClassMismatch name)
      | none => valFromMin c name v
    else some (.typeMismatch name)
  | none =>
    match c.subClass with
    | some t =>
      if (typeOf v).isSub t then valFromMin c name v else some (.subClassMismatch name)
    | none => valFromMin c name v

/-- The dtype check of `validate`, in isolation. -/
def dtypeCheck (c : ArgConstraint) (name : String) (v : Value) : Option PyError :=
  match c.dtype with
  | none => none
  | some ts => if pyIsInstance v ts then none else some (.typeMismatch name)

/-- The subClass check of `validate`, in isolation. -/
def subClassCheck (c : ArgConstraint) (name : String) (v : Value) : Option PyError :=
  match c.subClass with
  | none => none
  | some t => if (typeOf v).isSub t then none else some (.subClassMismatch name)

/-- The min check of `validate`, in isolation. -/
def minCheck (c : ArgConstraint) (name : String) (v : Value) : Option PyError :=
  match c.min with
  | none => none
  | some m =>
    match pyLt v m with
    | none => some .cmpTypeError
    | some true => some (.belowMinimum name)
    | some false => none

/-- The max check of `validate`, in isolation. -/
def maxCheck (c : ArgConstraint) (name : String) (v : Value) : Option PyError :=
  match c.max with
  | none => none
  | some m =>
    match pyGt v m with
    | none => some .cmpTypeError
    | some true => some (.aboveMaximum name)
    | some false => none

/-- The minLength check of `validate`, in isolation. -/
def minLenCheck (c : ArgConstraint) (name : String) (v : Value) : Option PyError :=
  match c.minLength with
  | none => none
  | some a =>
    match pyLen v with
    | none => some .cmpTypeError
    | some l => if (l : Int) < a then some (.tooShort name) else none

/-- The maxLength check of `validate`, in isolation. -/
def maxLenCheck (c : ArgConstraint) (name : String) (v : Value) : Option PyError :=
  match c.maxLength with
  | none => none
  | some b =>
    match pyLen v with
    | none => some .cmpTypeError
    | some l => if (l : Int) > b then some (.tooLong name) else none

/-- The possibleValues membership check of `validate`, in isolation. -/
def allowedCheck (c : ArgConstraint) (name : String) (v : Value) : Option PyError :=
  match c.possibleValues with
  | none => none
  | some pv => if pv.any (pyEq v) then none else some (.notAllowedValue name)

/-- First error of a list of individual check outcomes. -/
def firstSome : List (Option PyError) → Option PyError
  | [] => none
  | some e :: _ => some e
  | none :: rest => firstSome rest

/-- The seven checks of `validate` in the order the source runs them. -/
def checksInOrder (c : ArgConstraint) (name : String) (v : Value) : List (Option PyError) :=
  [dtypeCheck c name v, subClassCheck c name v, minCheck c name v, maxCheck c name v,
   minLenCheck c name v, maxLenCheck c name v, allowedCheck c name v]

/-- Python dict lookup `d[k]` / `k in d` combined: `some v` when present. -/
def dictGet {α : Type} (d : List (String × α)) (k : String) : Option α :=
  (d.find? (fun p => p.1 == k)).map (fun p => p.2)

/-- Python dict assignment `d[k] = v`: overwrites in place when the key is
present (keeping its position, as Python dicts do), appends otherwise. -/
def dictSet {α : Type} (d : List (String × α)) (k : String) (v : α) : List (String × α) :=
  if d.any (fun p => p.1 == k) then
    d.map (fun p => if p.1 == k then (k, v) else p)
  else d ++ [(k, v)]

/-- Python `del d[k]` (only ever called on present keys in the source). -/
def dictDel {α : Type} (d : List (String × α)) (k : String) : List (String × α) :=
  d.filter (fun p => p.1 != k)

/-- The recognized constraint options of `_parseConstraint` (source lines
240-245), already shaped: the Python-level shape checks on `dtype`,
`subClass`, `minLength`, `maxLength`, `optional`, `possibleValues`, and the
rejection of unrecognized keys, are rendered by this typed record; `min` and
`max` are kept as raw values because the source checks their numeric shape
explicitly and our claims range over that check. -/
structure ConstraintSpec where
  dtype : Option (List Ty) := none
  subClass : Option Ty := none
  min : Option Value := none
  max : Option Value := none
  minLength : Option Int := none
  maxLength : Option Int := none
  default : Option Value := none
  possibleValues : Option (List Value) := none
  optional : Bool := false
deriving DecidableEq, Repr

/-- The `localValidate` closure of `_parseConstraint` (source lines 193-238):
the same six shape checks as `ArgConstraint.validate`, followed by a
possibleValues membership check that is gated on the `possibleVals` flag
parameter. Crucially, both call sites in the source leave that flag at its
default `False`, so the membership branch is dead code there; when the flag
is set but `possibleValues` was not supplied, Python's `value not in
<sentinel>` would itself raise a TypeError (`cmpTypeError`). -/
def localValidate (spec : ConstraintSpec) (name : String) (v : Value)
    (possibleVals : Bool) : Option PyError :=
  match ArgConstraint.validate
      { dtype := spec.dtype, subClass := spec.subClass, min := spec.min, max := spec.max,
        minLength := spec.minLength, maxLength := spec.maxLength } name v with
  | some e => some e
  | none =>
    if possibleVals then
      match spec.possibleValues with
      | some pv => if pv.any (pyEq v) then none else some (.notAllowedValue name)
      | none => some .cmpTypeError
    else none

/-- Name used for the error message when element `i` of `possibleValues`
fails validation (source line 330). -/
def elemName (i : Nat) : String :=
  "possibleValues[" ++ toString i ++ "]"

/-- The element loop of `_parseConstraint` over `possibleValues` (source
lines 329-330): each element runs through `localValidate` with the
`possibleVals` flag left at `False`; the first failure propagates. -/
def checkElems (spec : ConstraintSpec) : List Value → Nat → Option PyError
  | [], _ => none
  | v :: rest, i =>
    match localValidate spec (elemName i) v false with
    | some e => some e
    | none => checkElems spec rest (i + 1)

/-- `_parseConstraint` (source lines 177-352): shape-checks `min` and `max`
(must be int or float), validates every `possibleValues` element, validates
`default` (with the membership flag left at `False`, as at source line 335),
then builds the `ArgConstraint`. -/
def parseConstraint (name : String) (spec : ConstraintSpec) : Except PyError ArgConstraint :=
  if spec.min.any (fun m => !(isNum m)) then .error (.constraintSpecError name)
  else if spec.max.any (fun m => !(isNum m)) then .error (.constraintSpecError name)
  else
    match (match spec.possibleValues with
           | some pv => checkElems spec pv 0
           | none => none) with
    | some e => .error e
    | none =>
      match (match spec.default with
             | some d => localValidate spec "default" d false
             | none => none) with
      | some e => .error e
      | none =>
        .ok { dtype := spec.dtype, subClass := spec.subClass, min := spec.min,
              max := spec.max, minLength := spec.minLength, maxLength := spec.maxLength,
              optional := spec.optional, possibleValues := spec.possibleValues,
              default := spec.default }

/-- The mutable state of an `ArgParser` instance that drives binding:
`_hasDefaultPositionalArg`, `_kwargs` and `_args` (source lines 167-175). -/
structure Binder where
  hasDefaultPositionalArg : Bool
  kwargs : List (String × ArgConstraint)
  args : List (String × ArgConstraint)
deriving DecidableEq, Repr

/-- A fresh `ArgParser()` (source lines 167-175). -/
def Binder.empty : Binder :=
  ⟨false, [], []⟩

/-- `addKeywordArg` (source lines 354-365). -/
def addKeywordArg (b : Binder) (name : String) (spec : ConstraintSpec) :
    Except PyError Binder :=
  match parseConstraint name spec with
  | .error e => .error e
  | .ok c => .ok { b with kwargs := dictSet b.kwargs name c }

/-- `addPositionalArg` (source lines 367-391): refuses any declaration once a
defaulted positional exists; refuses a defaulted declaration once any other
positional exists; otherwise stores the constraint, raising the
`_hasDefaultPositionalArg` flag when the new constraint has a default. Both
source-level `ValueError`s are the spec's MultiplePositionalDefaults kind. -/
def addPositionalArg (b : Binder) (name : String) (spec : ConstraintSpec) :
    Except PyError Binder :=
  if b.hasDefaultPositionalArg then .error .multiplePositionalDefaults
  else
    match parseConstraint name spec with
    | .error e => .error e
    | .ok c =>
      if c.default.isSome then
        if b.args.length ≠ 0 then .error .multiplePositionalDefaults
        else .ok { b with hasDefaultPositionalArg := true, args := dictSet b.args name c }
      else .ok { b with args := dictSet b.args name c }

/-- The loop state of the positional binding loop of `_parsePositionalArgs`
(source lines 469-479). `A` is the live, mutated list `args`; `i` is the
`enumerate` counter (used by `del args[i]`); `j` is the position of the
`zip` iterator inside the live list `A`; `bound` is the set of attributes
placed on `self` by `setattr`; `argsMap` is the live `self._args`. -/
structure PosState where
  err : Option PyError
  A : List Value
  i : Nat
  j : Nat
  bound : List (String × Value)
  argsMap : List (String × ArgConstraint)
deriving DecidableEq, Repr

/-- One iteration of the loop at source lines 470-479 for the declaration
`(name, c)` drawn from the snapshot `list(self._args.items())`. Fetching
`A[j]` renders the `zip` iterator over the live, shrinking list `args`: when
`j` is out of range the iteration stops, leaving the state unchanged. On a
validation error the exception propagates with nothing deleted; on success
the value is bound, `del args[i]` removes position `i` of the live list, and
the declaration leaves `self._args`. -/
def posStep (name : String) (c : ArgConstraint) (s : PosState) : PosState :=
  match s.A[s.j]? with
  | none => s
  | some arg =>
    match c.validate name arg with
    | some e => { s with err := some e, j := s.j + 1 }
    | none =>
      { err := none, A := s.A.eraseIdx s.i, i := s.i + 1, j := s.j + 1,
        bound := dictSet s.bound name arg, argsMap := dictDel s.argsMap name }

/-- The whole loop at source lines 470-479, iterating `posStep` over the
snapshot of declarations and stopping at the first raised error. -/
def posLoop : List (String × ArgConstraint) → PosState → PosState
  | [], s => s
  | d :: rest, s =>
    match (posStep d.1 d.2 s).err with
    | some _ => posStep d.1 d.2 s
    | none => posLoop rest (posStep d.1 d.2 s)

/-- The arity check opening `_parsePositionalArgs` (source lines 449-461):
given `P` declared positionals, `K` declared keywords and `A` supplied
positional values, returns the raised error (if any) and the
`keywordlessKWARGS` overflow-mode flag. -/
def arityCheck (P K A : Nat) : Option PyError × Bool :=
  if A > P then
    if K = 0 then (some (.tooManyPositionalExact P A), false)
    else if K + P < A then (some (.tooManyPositionalRange P (P + K) A), false)
    else (none, true)
  else (none, false)

/-- The overflow loop at source lines 491-496: leftover positional values are
written into the keyword-value dict under the declared keyword names in
declaration order. `none` models the IndexError Python would raise if the
leftovers outnumbered the keyword names. -/
def overflowMerge : List String → List Value → List (String × Value) →
    Option (List (String × Value))
  | _, [], kwargs => some kwargs
  | [], _ :: _, _ => none
  | n :: ns, arg :: rest, kwargs => overflowMerge ns rest (dictSet kwargs n arg)

/-- Result of `_parsePositionalArgs`: the raised error if any, the attributes
set on `self` so far, the parser state after its destructive updates, and the
(possibly overflow-augmented) keyword dict the method returns. -/
structure PosResult where
  err : Option PyError
  bound : List (String × Value)
  binder : Binder
  outKwargs : List (String × Value)
deriving DecidableEq, Repr

/-- `_parsePositionalArgs` (source lines 438-500). In order: the arity check;
the single-defaulted-positional shortcut (source lines 463-467, binding the
default with no validation); otherwise the pairing loop followed by the
missing-positionals check (source lines 481-489, one message shape for a
single missing name, another for several); finally the overflow merge when
`keywordlessKWARGS` was set. -/
def parsePositionalArgs (b : Binder) (args : List Value)
    (kwargs : List (String × Value)) (bound : List (String × Value)) : PosResult :=
  match arityCheck b.args.length b.kwargs.length args.length with
  | (some e, _) => ⟨some e, bound, b, kwargs⟩
  | (none, keywordlessKWARGS) =>
    if b.hasDefaultPositionalArg ∧ args.length = 0 then
      match b.args with
      | [] => ⟨some .indexError, bound, b, kwargs⟩
      | (name, c) :: _ =>
        ⟨none, dictSet bound name (c.default.getD .vnone),
          { b with args := dictDel b.args name }, kwargs⟩
    else
      let s := posLoop b.args ⟨none, args, 0, 0, bound, b.args⟩
      match s.err with
      | some e => ⟨some e, s.bound, { b with args := s.argsMap }, kwargs⟩
      | none =>
        if s.argsMap.length > 0 then
          if s.argsMap.length = 1 then
            ⟨some (.missingPositionalOne ((s.argsMap.map Prod.fst).headD "")),
              s.bound, { b with args := s.argsMap }, kwargs⟩
          else
            ⟨some (.missingPositionalMany (s.argsMap.map Prod.fst)),
              s.bound, { b with args := s.argsMap }, kwargs⟩
        else
          if keywordlessKWARGS then
            match overflowMerge (b.kwargs.map Prod.fst) s.A kwargs with
            | none => ⟨some .indexError, s.bound, { b with args := s.argsMap }, kwargs⟩
            | some merged => ⟨none, s.bound, { b with args := s.argsMap }, merged⟩
          else ⟨none, s.bound, { b with args := s.argsMap }, kwargs⟩

/-- The loop state of `_parseKeywordArgs` (source lines 405-427): the live
keyword-value dict `kwargs`, the attributes set on `self`, and the live
`self._kwargs`. -/
structure KwState where
  err : Option PyError
  kwargs : List (String × Value)
  bound : List (String × Value)
  kwMap : List (String × ArgConstraint)
deriving DecidableEq, Repr

/-- One iteration of the loop at source lines 405-427 for declaration
`(name, c)`: a supplied value is validated (errors propagate with nothing
deleted), bound, and removed from the dict; otherwise the default, then
optionality (binding Python `None`), then the missing-required error apply.
Each completed iteration removes the declaration from the live
`self._kwargs`. -/
def kwStep (name : String) (c : ArgConstraint) (s : KwState) : KwState :=
  match dictGet s.kwargs name with
  | some value =>
    match c.validate name value with
    | some e => { s with err := some e }
    | none =>
      { s with kwargs := dictDel s.kwargs name,
               bound := dictSet s.bound name value, kwMap := dictDel s.kwMap name }
  | none =>
    if c.default.isSome then
      { s with bound := dictSet s.bound name (c.default.getD .vnone),
               kwMap := dictDel s.kwMap name }
    else if c.optional then
      { s with bound := dictSet s.bound name .vnone, kwMap := dictDel s.kwMap name }
    else { s with err := some (.missingKeyword name) }

/-- The whole declared-keywords loop of `_parseKeywordArgs`, iterating
`kwStep` over the snapshot `list(self._kwargs.items())` and stopping at the
first raised error. -/
def kwLoop : List (String × ArgConstraint) → KwState → KwState
  | [], s => s
  | d :: rest, s =>
    match (kwStep d.1 d.2 s).err with
    | some _ => kwStep d.1 d.2 s
    | none => kwLoop rest (kwStep d.1 d.2 s)

/-- Source line 431 compares the leftover dict itself against the integer 1
(`if kwargs == 1:`); in Python a dict never equals an int, so this guard is
always `False` whatever the dict holds. -/
def pyDictEqOne (_ : List (String × Value)) : Bool :=
  false

/-- Result of `_parseKeywordArgs` and of `parseArgs`. -/
structure ParseResult where
  err : Option PyError
  bound : List (String × Value)
  binder : Binder
deriving DecidableEq, Repr

/-- `_parseKeywordArgs` (source lines 393-436): the declared-keywords loop,
then the unexpected-keywords check at lines 429-434. The single-name message
branch is guarded by `pyDictEqOne` (the source's `kwargs == 1`), and its
`popitem()` takes the last entry of the dict. -/
def parseKeywordArgs (b : Binder) (kwargs : List (String × Value))
    (bound : List (String × Value)) : ParseResult :=
  let s := kwLoop b.kwargs ⟨none, kwargs, bound, b.kwargs⟩
  match s.err with
  | some e => ⟨some e, s.bound, { b with kwargs := s.kwMap }⟩
  | none =>
    if s.kwargs.length > 0 then
      if pyDictEqOne s.kwargs then
        ⟨some (.unexpectedKeywordOne ((s.kwargs.map Prod.fst).getLastD "")),
          s.bound, { b with kwargs := s.kwMap }⟩
      else
        ⟨some (.unexpectedKeywordMany (s.kwargs.map Prod.fst)),
          s.bound, { b with kwargs := s.kwMap }⟩
    else ⟨none, s.bound, { b with kwargs := s.kwMap }⟩

/-- `parseArgs` (source lines 502-513): positional resolution first; if it
raises, the keyword phase never runs; otherwise the keyword phase consumes
the (possibly overflow-augmented) keyword dict. -/
def parseArgs (b : Binder) (args : List Value)
    (kwargs : List (String × Value)) : ParseResult :=
  let pr := parsePositionalArgs b args kwargs []
  match pr.err with
  | some e => ⟨some e, pr.bound, pr.binder⟩
  | none => parseKeywordArgs pr.binder pr.outKwargs pr.bound

/-- A constraint with no active checks (all options left unspecified). -/
def cAny : ArgConstraint :=
  {}

/-- A constraint requiring a string value, nothing else. -/
def cStr : ArgConstraint :=
  { dtype := some [Ty.str] }

/-- The invariant of claim C6: the defaulted-positional flag records exactly
whether some positional declaration carries a default, and a defaulted
positional is the only positional declaration. -/
def BinderInv (b : Binder) : Prop :=
  (b.hasDefaultPositionalArg = true ↔ ∃ p ∈ b.args, p.2.default.isSome = true) ∧
  (b.hasDefaultPositionalArg = true → b.args.length = 1)

instance (b : Binder) : Decidable (BinderInv b) := by
  unfold BinderInv
  infer_instance

lemma mem_dictSet {α : Type} {d : List (String × α)} {k : String} {v : α} {p : String × α}
    (hp : p ∈ dictSet d k v) : p = (k, v) ∨ p ∈ d := by
  unfold dictSet at hp
  split at hp
  · obtain ⟨q, hq, hq2⟩ := List.mem_map.mp hp
    by_cases hk : q.1 == k
    · left
      rw [← hq2]
      simp [hk]
    · right
      rw [← hq2]
      simp only [hk, if_neg]
      simpa [hk] using hq
  · rcases List.mem_append.mp hp with h | h
    · right; exact h
    · left; simpa using h

lemma valAllowed_eq_firstSome (c : ArgConstraint) (n : String) (v : Value) :
    valAllowed c n v = firstSome [allowedCheck c n v] := by
  cases hc : c.possibleValues with
  | none => simp [valAllowed, allowedCheck, hc, firstSome]
  | some pv =>
    by_cases hm : pv.any (pyEq v) <;> simp [valAllowed, allowedCheck, hc, hm, firstSome]

lemma valFromMaxLength_eq (c : ArgConstraint) (n : String) (v : Value) :
    valFromMaxLength c n v = firstSome [maxLenCheck c n v, allowedCheck c n v] := by
  cases hb : c.maxLength with
  | none =>
    simp [valFromMaxLength, maxLenCheck, hb, firstSome, valAllowed_eq_firstSome]
  | some b =>
    cases hl : pyLen v with
    | none => simp [valFromMaxLength, maxLenCheck, hb, hl, firstSome]
    | some l =>
      by_cases hgt : (l : Int) > b <;>
        simp [valFromMaxLength, maxLenCheck, hb, hl, hgt, firstSome, valAllowed_eq_firstSome]

lemma valFromMinLength_eq (c : ArgConstraint) (n : String) (v : Value) :
    valFromMinLength c n v
      = firstSome [minLenCheck c n v, maxLenCheck c n v, allowedCheck c n v] := by
  cases ha : c.minLength with
  | none =>
    simp [valFromMinLength, minLenCheck, ha, firstSome, valFromMaxLength_eq]
  | some a =>
    cases hl : pyLen v with
    | none => simp [valFromMinLength, minLenCheck, ha, hl, firstSome]
    | some l =>
      by_cases hlt : (l : Int) < a <;>
        simp [valFromMinLength, minLenCheck, ha, hl, hlt, firstSome, valFromMaxLength_eq]

lemma valFromMax_eq (c : ArgConstraint) (n : String) (v : Value) :
    valFromMax c n v
      = firstSome [maxCheck c n v, minLenCheck c n v, maxLenCheck c n v,
          allowedCheck c n v] := by
  cases hm : c.max with
  | none => simp [valFromMax, maxCheck, hm, firstSome, valFromMinLength_eq]
  | some m =>
    cases hg : pyGt v m with
    | none => simp [valFromMax, maxCheck, hm, hg, firstSome]
    | some bres =>
      cases bres <;> simp [valFromMax, maxCheck, hm, hg, firstSome, valFromMinLength_eq]

lemma valFromMin_eq (c : ArgConstraint) (n : String) (v : Value) :
    valFromMin c n v
      = firstSome [minCheck c n v, maxCheck c n v, minLenCheck c n v,
          maxLenCheck c n v, allowedCheck c n v] := by
  cases hm : c.min with
  | none => simp [valFromMin, minCheck, hm, firstSome, valFromMax_eq]
  | some m =>
    cases hg : pyLt v m with
    | none => simp [valFromMin, minCheck, hm, hg, firstSome]
    | some bres =>
      cases bres <;> simp [valFromMin, minCheck, hm, hg, firstSome, valFromMax_eq]

/-- C9: `validate` runs its checks in the fixed order type, subtype, minimum,
maximum, minLength, maxLength, allowedValues; its outcome is the first failing
check's error (the later checks are skipped), and it succeeds exactly when
every check passes. `checksInOrder` lists the seven checks, each defined
independently of `validate`, and `firstSome` picks the first failure. -/
theorem validate_check_order (c : ArgConstraint) (name : String) (v : Value) :
    c.validate name v = firstSome (checksInOrder c name v) := by
  unfold checksInOrder
  cases hd : c.dtype with
  | none =>
    cases hs : c.subClass with
    | none =>
      simp [ArgConstraint.validate, dtypeCheck, subClassCheck, hd, hs, firstSome,
        valFromMin_eq]
    | some t =>
      by_cases hsub : (typeOf v).isSub t <;>
        simp [ArgConstraint.validate, dtypeCheck, subClassCheck, hd, hs, hsub, firstSome,
          valFromMin_eq]
  | some ts =>
    by_cases hin : pyIsInstance v ts
    · cases hs : c.subClass with
      | none =>
        simp [ArgConstraint.validate, dtypeCheck, subClassCheck, hd, hs, hin, firstSome,
          valFromMin_eq]
      | some t =>
        by_cases hsub : (typeOf v).isSub t <;>
          simp [ArgConstraint.validate, dtypeCheck, subClassCheck, hd, hs, hin, hsub,
            firstSome, valFromMin_eq]
    · simp [ArgConstraint.validate, dtypeCheck, hd, hin, firstSome]

/-- C8: for a constraint whose only active checks are a numeric minimum `m`
and maximum `M` with `m ≤ M`, `validate` succeeds on every number in
`[m, M]`, fails with the below-minimum error on every number below `m`, and
fails with the above-maximum error on every number above `M`. The int/float
tags `bm`, `bM`, `bq` are arbitrary: Python compares ints and floats
transparently. -/
theorem min_max_validate_spec (n : String) (m M q : ℚ) (bm bM bq : Bool) (h : m ≤ M) :
    (m ≤ q ∧ q ≤ M →
      ArgConstraint.validate { min := some (.vnum m bm), max := some (.vnum M bM) } n
        (.vnum q bq) = none) ∧
    (q < m →
      ArgConstraint.validate { min := some (.vnum m bm), max := some (.vnum M bM) } n
        (.vnum q bq) = some (.belowMinimum n)) ∧
    (M < q →
      ArgConstraint.validate { min := some (.vnum m bm), max := some (.vnum M bM) } n
        (.vnum q bq) = some (.aboveMaximum n)) := by
  refine ⟨?_, ?_, ?_⟩
  · rintro ⟨h1, h2⟩
    have hqm : ¬ q < m := not_lt.mpr h1
    have hMq : ¬ M < q := not_lt.mpr h2
    simp [ArgConstraint.validate, valFromMin, valFromMax, valFromMinLength,
      valFromMaxLength, valAllowed, pyLt, pyGt, hqm, hMq]
  · intro h1
    simp [ArgConstraint.validate, valFromMin, pyLt, h1]
  · intro h1
    have hqm : ¬ q < m := not_lt.mpr (le_of_lt (lt_of_le_of_lt h h1))
    simp [ArgConstraint.validate, valFromMin, valFromMax, pyLt, pyGt, hqm, h1]

/-- Witness for C8 at `m = 0`, `M = 2` and the three sample values 1, -1, 3. -/
theorem min_max_validate_spec_witness :
    ArgConstraint.validate
        { min := some (.vnum 0 false), max := some (.vnum 2 false) } "n"
        (.vnum 1 false) = none ∧
    ArgConstraint.validate
        { min := some (.vnum 0 false), max := some (.vnum 2 false) } "n"
        (.vnum (-1) false) = some (.belowMinimum "n") ∧
    ArgConstraint.validate
        { min := some (.vnum 0 false), max := some (.vnum 2 false) } "n"
        (.vnum 3 false) = some (.aboveMaximum "n") :=
  ⟨(min_max_validate_spec "n" 0 2 1 false false false (by norm_num)).1
      ⟨by norm_num, by norm_num⟩,
   (min_max_validate_spec "n" 0 2 (-1) false false false (by norm_num)).2.1 (by norm_num),
   (min_max_validate_spec "n" 0 2 3 false false false (by norm_num)).2.2 (by norm_num)⟩

/-- C1 (code bug): declaring two positional parameters `a`, `b` with no
active checks and binding exactly two values pairs `a` with the first value
but then reports `b` as a missing positional. The pairing loop deletes
position `i` of the very list the `zip` iterator walks, so it skips every
other supplied value; `b` is never paired even though two values were
supplied for two declarations. The claim says both names bind and no
MissingPositional is raised. -/
theorem parsePositional_pairing_bug :
    (parseArgs ⟨false, [], [("a", cAny), ("b", cAny)]⟩
        [Value.vstr "x", Value.vstr "y"] []).err
      = some (.missingPositionalOne "b") ∧
    (parseArgs ⟨false, [], [("a", cAny), ("b", cAny)]⟩
        [Value.vstr "x", Value.vstr "y"] []).bound
      = [("a", Value.vstr "x")] := by
  decide

/-- C3 (code bug): a declaration whose `default` is not a member of its
`possibleValues` is accepted at declaration time. The source's
`localValidate` call for the default (line 335) leaves the `possibleVals`
flag at `False`, so the membership check never runs — even though, as the
second conjunct shows, the built constraint's own `validate` rejects that
default with the NotAllowedValue error the claim expects. -/
theorem default_possibleValues_unchecked :
    parseConstraint "pos1"
        { dtype := some [Ty.str], default := some (Value.vstr "bogus"),
          possibleValues := some [Value.vstr "value", Value.vstr "test"] }
      = .ok { dtype := some [Ty.str], default := some (Value.vstr "bogus"),
              possibleValues := some [Value.vstr "value", Value.vstr "test"] } ∧
    ArgConstraint.validate
        { dtype := some [Ty.str], default := some (Value.vstr "bogus"),
          possibleValues := some [Value.vstr "value", Value.vstr "test"] }
        "pos1" (Value.vstr "bogus") = some (.notAllowedValue "pos1") :=
  ⟨rfl, by decide⟩

/-- C4 (code bug): with exactly one undeclared keyword name remaining, the
bind call raises the list-of-names form of UnexpectedKeyword, not the
single-name form. The guard at source line 431 compares the leftover dict
itself against the integer 1 (`kwargs == 1`), which is always false, so the
single-name branch is unreachable. -/
theorem unexpectedKeyword_plural_bug :
    (parseArgs ⟨false, [], []⟩ [] [("kw5", Value.vstr "v")]).err
      = some (.unexpectedKeywordMany ["kw5"]) := by
  decide

/-- C2 counterexample: a failing bind call that leaves a parameter bound.
With two required keyword declarations and only `kw1` supplied, the call
fails with MissingKeyword for `kw2`, yet `kw1` is bound to the supplied
value — the observable bound state is not unchanged on error. -/
theorem bind_leftover_binding_counterexample :
    (parseArgs ⟨false, [("kw1", cAny), ("kw2", cAny)], []⟩ []
        [("kw1", Value.vstr "a")]).err
      = some (.missingKeyword "kw2") ∧
    (parseArgs ⟨false, [("kw1", cAny), ("kw2", cAny)], []⟩ []
        [("kw1", Value.vstr "a")]).bound
      = [("kw1", Value.vstr "a")] := by
  decide

/-- C7: a binder whose single positional declaration carries default `D`,
bound with zero positional values, binds that name to `D` and completes
positional resolution, consuming the declaration and passing the keyword
values through untouched. The constraint `c` is arbitrary — in particular no
`validate` hypothesis is needed, which is exactly the claim's "no validation
re-run". -/
theorem defaultedPositional_binds_default (name : String) (c : ArgConstraint)
    (kd : List (String × ArgConstraint)) (kwargs : List (String × Value)) (D : Value)
    (h : c.default = some D) :
    parsePositionalArgs ⟨true, kd, [(name, c)]⟩ [] kwargs []
      = ⟨none, [(name, D)], ⟨true, kd, []⟩, kwargs⟩ := by
  simp [parsePositionalArgs, arityCheck, dictSet, dictDel, h]

/-- Witness for C7 with default value the string `d`. -/
theorem defaultedPositional_binds_default_witness :
    parsePositionalArgs ⟨true, [], [("p", { default := some (Value.vstr "d") })]⟩ [] [] []
      = ⟨none, [("p", Value.vstr "d")], ⟨true, [], []⟩, []⟩ :=
  defaultedPositional_binds_default "p" { default := some (Value.vstr "d") } [] []
    (Value.vstr "d") rfl

/-- C10: with one keyword declaration `k`, no positional declarations, one
supplied positional value `x` (entering keyword-overflow mode) and `k` also
explicitly supplied as `y`, the overflow assignment overwrites the explicit
entry in the working keyword dict: the bind succeeds, `k` is bound to the
overflow value `x`, and the explicit value `y` is silently discarded. -/
theorem overflow_overwrites_explicit_keyword (k : String) (c : ArgConstraint)
    (x y : Value) (hv : c.validate k x = none) :
    parseArgs ⟨false, [(k, c)], []⟩ [x] [(k, y)]
      = ⟨none, [(k, x)], ⟨false, [], []⟩⟩ := by
  simp [parseArgs, parsePositionalArgs, parseKeywordArgs, arityCheck, posLoop,
    kwLoop, kwStep, dictGet, dictSet, dictDel, overflowMerge, hv]

/-- Witness for C10: the overflow value `a` replaces the explicit value `b`. -/
theorem overflow_overwrites_explicit_keyword_witness :
    parseArgs ⟨false, [("k", cAny)], []⟩ [Value.vstr "a"] [("k", Value.vstr "b")]
      = ⟨none, [("k", Value.vstr "a")], ⟨false, [], []⟩⟩ :=
  overflow_overwrites_explicit_keyword "k" cAny (Value.vstr "a") (Value.vstr "b") rfl

/-- C5: with `P` positional declarations, `K` keyword declarations and `A`
supplied positional values, the bind call fails with the exact-count
TooManyPositional message when `A > P` and `K = 0`; it fails with the
range-form message when `K ≠ 0` and `A > P + K` (the source checks `K = 0`
first, so the range branch presupposes `K ≠ 0`); and when `P < A ≤ P + K`
the arity check raises nothing and sets the keyword-overflow flag instead. -/
theorem tooManyPositional_spec (b : Binder) (args : List Value)
    (kwargs : List (String × Value)) :
    (args.length > b.args.length ∧ b.kwargs.length = 0 →
      (parseArgs b args kwargs).err
        = some (.tooManyPositionalExact b.args.length args.length)) ∧
    (b.kwargs.length ≠ 0 ∧ args.length > b.args.length + b.kwargs.length →
      (parseArgs b args kwargs).err
        = some (.tooManyPositionalRange b.args.length
            (b.args.length + b.kwargs.length) args.length)) ∧
    (b.args.length < args.length ∧ args.length ≤ b.args.length + b.kwargs.length →
      arityCheck b.args.length b.kwargs.length args.length = (none, true)) := by
  refine ⟨?_, ?_, ?_⟩
  · rintro ⟨h1, h2⟩
    have ha : arityCheck b.args.length b.kwargs.length args.length
        = (some (.tooManyPositionalExact b.args.length args.length), false) := by
      unfold arityCheck
      rw [if_pos h1, if_pos h2]
    simp [parseArgs, parsePositionalArgs, ha]
  · rintro ⟨h1, h2⟩
    have hAP : args.length > b.args.length := by omega
    have hlt : b.kwargs.length + b.args.length < args.length := by omega
    have ha : arityCheck b.args.length b.kwargs.length args.length
        = (some (.tooManyPositionalRange b.args.length
            (b.args.length + b.kwargs.length) args.length), false) := by
      unfold arityCheck
      rw [if_pos hAP, if_neg h1, if_pos hlt]
    simp [parseArgs, parsePositionalArgs, ha]
  · rintro ⟨h1, h2⟩
    have hK : ¬ b.kwargs.length = 0 := by omega
    have hnlt : ¬ b.kwargs.length + b.args.length < args.length := by omega
    unfold arityCheck
    rw [if_pos h1, if_neg hK, if_neg hnlt]

/-- Witness for C5: exact form at `P = 1, K = 0, A = 2`; range form at
`P = 0, K = 1, A = 2`; overflow mode at `P = 0, K = 1, A = 1`. -/
theorem tooManyPositional_spec_witness :
    (parseArgs ⟨false, [], [("a", cAny)]⟩ [Value.vnone, Value.vnone] []).err
      = some (.tooManyPositionalExact 1 2) ∧
    (parseArgs ⟨false, [("k", cAny)], []⟩ [Value.vnone, Value.vnone] []).err
      = some (.tooManyPositionalRange 0 1 2) ∧
    arityCheck 0 1 1 = (none, true) :=
  ⟨(tooManyPositional_spec ⟨false, [], [("a", cAny)]⟩ [Value.vnone, Value.vnone] []).1
      (by decide),
   (tooManyPositional_spec ⟨false, [("k", cAny)], []⟩ [Value.vnone, Value.vnone] []).2.1
      (by decide),
   (tooManyPositional_spec ⟨false, [("k", cAny)], []⟩ [Value.vnone] []).2.2 (by decide)⟩

/-- C6: `addPositionalArg` preserves the at-most-one-defaulted-positional
invariant, and both orders of violating it fail with
MultiplePositionalDefaults: declaring anything after a defaulted positional
exists (first conjunct, no constraint-validity assumption needed — the flag
is checked before the options are parsed), and declaring a defaulted
positional while any other positional declaration exists (second conjunct).
The third conjunct is preservation of the invariant by every successful
declaration. -/
theorem positionalDefault_invariant (b : Binder) (name : String) (spec : ConstraintSpec)
    (hinv : BinderInv b) :
    (b.hasDefaultPositionalArg = true →
      addPositionalArg b name spec = .error .multiplePositionalDefaults) ∧
    (∀ c, parseConstraint name spec = .ok c → c.default.isSome = true → b.args ≠ [] →
      addPositionalArg b name spec = .error .multiplePositionalDefaults) ∧
    (∀ b2, addPositionalArg b name spec = .ok b2 → BinderInv b2) := by
  refine ⟨?_, ?_, ?_⟩
  · intro h
    simp [addPositionalArg, h]
  · intro c hc hdef hne
    by_cases hflag : b.hasDefaultPositionalArg
    · simp [addPositionalArg, hflag]
    · have hlen : b.args.length ≠ 0 := by
        simpa [List.length_eq_zero] using hne
      simp [addPositionalArg, hflag, hc, hdef, hlen]
  · intro b2 hok
    by_cases hflag : b.hasDefaultPositionalArg
    · simp [addPositionalArg, hflag] at hok
    · cases hpc : parseConstraint name spec with
      | error e => simp [addPositionalArg, hflag, hpc] at hok
      | ok c =>
        by_cases hdef : c.default.isSome
        · by_cases hlen : b.args.length ≠ 0
          · simp [addPositionalArg, hflag, hpc, hdef, hlen] at hok
          · have hargs : b.args = [] := by
              rw [← List.length_eq_zero]
              omega
            simp [addPositionalArg, hflag, hpc, hdef, hlen] at hok
            rw [← hok]
            refine ⟨?_, ?_⟩
            · simp only [hargs, dictSet, List.any_nil, List.nil_append, if_neg,
                Bool.false_eq_true, not_false_iff]
              constructor
              · intro _
                exact ⟨(name, c), by simp, hdef⟩
              · intro _
                trivial
            · intro _
              simp [hargs, dictSet]
        · simp [addPositionalArg, hflag, hpc, hdef] at hok
          rw [← hok]
          have hflag' : b.hasDefaultPositionalArg = false := by
            simpa using hflag
          refine ⟨?_, ?_⟩
          · simp only [hflag', Bool.false_eq_true, false_iff]
            rintro ⟨p, hp, hpd⟩
            rcases mem_dictSet hp with heq | hmem
            · rw [heq] at hpd
              simp only at hpd
              rw [hpd] at hdef
              exact hdef rfl
            · have := hinv.1
              rw [hflag'] at this
              simp only [Bool.false_eq_true, false_iff] at this
              exact this ⟨p, hmem, hpd⟩
          · simp [hflag']

/-- Witness for C6: both failure orders on concrete binders, and the
invariant after declaring a single defaulted positional on a fresh binder. -/
theorem positionalDefault_invariant_witness :
    addPositionalArg ⟨true, [], [("p", { default := some Value.vnone })]⟩ "q" {}
      = .error .multiplePositionalDefaults ∧
    addPositionalArg ⟨false, [], [("p", cAny)]⟩ "q" { default := some Value.vnone }
      = .error .multiplePositionalDefaults ∧
    BinderInv ⟨true, [], [("p", { default := some Value.vnone })]⟩ :=
  ⟨(positionalDefault_invariant ⟨true, [], [("p", { default := some Value.vnone })]⟩
      "q" {} (by decide)).1 rfl,
   (positionalDefault_invariant ⟨false, [], [("p", cAny)]⟩ "q"
      { default := some Value.vnone } (by decide)).2.1
      { default := some Value.vnone } rfl rfl (by decide),
   (positionalDefault_invariant ⟨false, [], []⟩ "p"
      { default := some Value.vnone } (by decide)).2.2
      ⟨true, [], [("p", { default := some Value.vnone })]⟩ rfl⟩

/-- C2 amended: every failure aborts the bind immediately — declarations
after the failing one are never processed and contribute nothing — though
bindings made before the failure are retained. Formally: a keyword-phase
error (first conjunct) or a positional-loop error (second conjunct) splits
the declaration list so that the whole loop's result is exactly the result
of processing the error-free prefix followed by the single failing step, the
suffix being irrelevant; and a positional-phase error stops the bind before
the keyword phase runs (third conjunct). -/
theorem bind_failfast_amended :
    (∀ (decls : List (String × ArgConstraint)) (s : KwState) (e : PyError),
      s.err = none → (kwLoop decls s).err = some e →
      ∃ pre d suf, decls = pre ++ d :: suf ∧ (kwLoop pre s).err = none ∧
        kwLoop decls s = kwStep d.1 d.2 (kwLoop pre s)) ∧
    (∀ (decls : List (String × ArgConstraint)) (s : PosState) (e : PyError),
      s.err = none → (posLoop decls s).err = some e →
      ∃ pre d suf, decls = pre ++ d :: suf ∧ (posLoop pre s).err = none ∧
        posLoop decls s = posStep d.1 d.2 (posLoop pre s)) ∧
    (∀ (b : Binder) (args : List Value) (kwargs : List (String × Value)) (e : PyError),
      (parsePositionalArgs b args kwargs []).err = some e →
      parseArgs b args kwargs
        = ⟨some e, (parsePositionalArgs b args kwargs []).bound,
            (parsePositionalArgs b args kwargs []).binder⟩) := by
  refine ⟨?_, ?_, ?_⟩
  · intro decls
    induction decls with
    | nil =>
      intro s e h1 h2
      rw [show kwLoop [] s = s from rfl, h1] at h2
      cases h2
    | cons d rest ih =>
      intro s e h1 h2
      cases herr : (kwStep d.1 d.2 s).err with
      | some e0 =>
        refine ⟨[], d, rest, rfl, by simpa [kwLoop] using h1, ?_⟩
        show kwLoop (d :: rest) s = kwStep d.1 d.2 (kwLoop [] s)
        simp [kwLoop, herr]
      | none =>
        have hstep : kwLoop (d :: rest) s = kwLoop rest (kwStep d.1 d.2 s) := by
          simp [kwLoop, herr]
        have h2' : (kwLoop rest (kwStep d.1 d.2 s)).err = some e := by
          rw [← hstep]
          exact h2
        obtain ⟨pre, d2, suf, hsplit, hpre, heq⟩ := ih (kwStep d.1 d.2 s) e herr h2'
        have hstep2 : kwLoop (d :: pre) s = kwLoop pre (kwStep d.1 d.2 s) := by
          simp [kwLoop, herr]
        refine ⟨d :: pre, d2, suf, by rw [hsplit]; rfl, ?_, ?_⟩
        · rw [hstep2]
          exact hpre
        · rw [hstep, hstep2, heq]
  · intro decls
    induction decls with
    | nil =>
      intro s e h1 h2
      rw [show posLoop [] s = s from rfl, h1] at h2
      cases h2
    | cons d rest ih =>
      intro s e h1 h2
      cases herr : (posStep d.1 d.2 s).err with
      | some e0 =>
        refine ⟨[], d, rest, rfl, by simpa [posLoop] using h1, ?_⟩
        show posLoop (d :: rest) s = posStep d.1 d.2 (posLoop [] s)
        simp [posLoop, herr]
      | none =>
        have hstep : posLoop (d :: rest) s = posLoop rest (posStep d.1 d.2 s) := by
          simp [posLoop, herr]
        have h2' : (posLoop rest (posStep d.1 d.2 s)).err = some e := by
          rw [← hstep]
          exact h2
        obtain ⟨pre, d2, suf, hsplit, hpre, heq⟩ := ih (posStep d.1 d.2 s) e herr h2'
        have hstep2 : posLoop (d :: pre) s = posLoop pre (posStep d.1 d.2 s) := by
          simp [posLoop, herr]
        refine ⟨d :: pre, d2, suf, by rw [hsplit]; rfl, ?_, ?_⟩
        · rw [hstep2]
          exact hpre
        · rw [hstep, hstep2, heq]
  · intro b args kwargs e h
    simp [parseArgs, h]

/-- Witness for C2's amended theorem: the keyword split at a missing required
keyword, the positional split at a type-check failure, and the bind stopping
at a positional-phase error. -/
theorem bind_failfast_amended_witness :
    (∃ pre d suf,
        [(("kw2" : String), cAny)] = pre ++ d :: suf ∧
        (kwLoop pre ⟨none, [], [], [("kw2", cAny)]⟩).err = none ∧
        kwLoop [("kw2", cAny)] ⟨none, [], [], [("kw2", cAny)]⟩
          = kwStep d.1 d.2 (kwLoop pre ⟨none, [], [], [("kw2", cAny)]⟩)) ∧
    (∃ pre d suf,
        [(("a" : String), cStr)] = pre ++ d :: suf ∧
        (posLoop pre ⟨none, [Value.vnum 1 false], 0, 0, [], [("a", cStr)]⟩).err = none ∧
        posLoop [("a", cStr)] ⟨none, [Value.vnum 1 false], 0, 0, [], [("a", cStr)]⟩
          = posStep d.1 d.2
              (posLoop pre ⟨none, [Value.vnum 1 false], 0, 0, [], [("a", cStr)]⟩)) ∧
    parseArgs ⟨false, [], [("a", cAny)]⟩ [] []
      = ⟨some (.missingPositionalOne "a"),
          (parsePositionalArgs ⟨false, [], [("a", cAny)]⟩ [] [] []).bound,
          (parsePositionalArgs ⟨false, [], [("a", cAny)]⟩ [] [] []).binder⟩ :=
  ⟨bind_failfast_amended.1 [("kw2", cAny)] ⟨none, [], [], [("kw2", cAny)]⟩
      (.missingKeyword "kw2") rfl (by decide),
   bind_failfast_amended.2.1 [("a", cStr)]
      ⟨none, [Value.vnum 1 false], 0, 0, [], [("a", cStr)]⟩
      (.typeMismatch "a") rfl (by decide),
   bind_failfast_amended.2.2 ⟨false, [], [("a", cAny)]⟩ [] []
      (.missingPositionalOne "a") (by decide)⟩

end ArgParser
